import Mathlib

/-!
Shallow embedding of the go-cmc client library (src/cmc.go) and proofs
about the claims of its specification.

The Go package exposes four operations on a `WebClient`: `Tickers`,
`Ticker`, `Prices` and `Markets`.  The two JSON-backed operations decode
a response body with `encoding/json` into `[]*Ticker`; the two
HTML-backed operations decode the page with the goq selector-based
decoder and then map the extracted rows into `Price` and `Market`
records.  Here the HTTP layer is abstracted as a `fetch` function from
the request URL to either an error or the parsed body (a JSON value for
the JSON endpoints, the per-row selection results for the HTML pages);
everything after that point is translated from the source.
-/

namespace Cmc

/-- Error values surfaced by the operations.  The Go code returns plain
`error` values; the constructors record the taxonomy of the spec:
`transport` for request construction and network failures, `decode` for
body-decoding failures (JSON shape or goq extraction), and
`responseShape` for the cardinality failure of the single-ticker lookup
(`errors.New` at line 183 of cmc.go). -/
inductive CmcError where
  | transport (msg : String)
  | decode (msg : String)
  | responseShape (msg : String)
deriving DecidableEq

/-- Ticker record, translated from the `Ticker` struct of cmc.go.  Every
field is a Go `string` except `Rank`, a Go `int` carrying the JSON tag
`rank,string`.  Go `int` is modelled as unbounded `Int`: no arithmetic is
performed on it, so overflow never matters here. -/
structure Ticker where
  ID : String
  Name : String
  Symbol : String
  Rank : Int
  PriceUSD : String
  PriceBTC : String
  VolumeUSD24hr : String
  MarketCapUSD : String
  SupplyAvailable : String
  SupplyTotal : String
  PercentChange1h : String
  PercentChange24h : String
  PercentChange7d : String
  LastUpdated : String
deriving DecidableEq

/-- Options of the `Tickers` call, translated from `TickersOptions`. -/
structure TickersOptions where
  Start : Int
  Limit : Int
deriving DecidableEq

/-- Price record, translated from the `Price` struct of cmc.go. -/
structure Price where
  Date : String
  OpenUSD : String
  HighUSD : String
  LowUSD : String
  CloseUSD : String
  VolumeUSD24hr : String
  MarketCapUSD : String
deriving DecidableEq

/-- Options of the `Prices` call, translated from `PricesOptions`. -/
structure PricesOptions where
  Start : String
  End : String
deriving DecidableEq

/-- Market record, translated from the `Market` struct of cmc.go.  The
fields `VolumeUSD24hr` and `PriceUSD` carry the JSON tag `-`: they are
excluded from JSON encoding and decoding. -/
structure Market where
  Source : String
  Pair : String
  VolumeUSD24hr : String
  PriceUSD : String
  VolumePercentage : String
deriving DecidableEq

deriving instance DecidableEq for Except

/-- JSON values, the parsed form of a response body.  Number literals
are kept as raw text: no claim inspects JSON numbers (every numeric
field of the API is a JSON string). -/
inductive Json where
  | null
  | bool (b : Bool)
  | num (lit : String)
  | str (s : String)
  | arr (elems : List Json)
  | obj (fields : List (String × Json))

/-- Last binding of a key in a JSON object.  The Go object decoder
processes keys in order and a later duplicate key overwrites an earlier
one, so the effective value of a field is the last occurrence of its
key.  Key matching is exact, as in the inputs of every claim (the Go
decoder additionally falls back to case-insensitive matching for keys
that match no field exactly; no claim exercises that fallback). -/
def lookupLast (fields : List (String × Json)) (key : String) : Option Json :=
  match fields with
  | [] => none
  | (k, v) :: rest =>
    match lookupLast rest key with
    | some r => some r
    | none => if k == key then some v else none

/-- Decoding of one string-typed struct field from a JSON object, the
`encoding/json` semantics for a `string` field: an absent key leaves the
zero value `""`, a JSON `null` leaves the value unchanged (also `""` on
a fresh record), a JSON string is taken verbatim, and any other JSON
value is a type error. -/
def decodeStrField (fields : List (String × Json)) (key : String) :
    Except CmcError String :=
  match lookupLast fields key with
  | none => .ok ""
  | some .null => .ok ""
  | some (.str s) => .ok s
  | some _ => .error (.decode ("cannot unmarshal value into string field " ++ key))

/-- Digit-sequence parse: a nonempty all-digit character list denotes
the base-10 value folded from the most significant digit; anything else
is rejected.  This is the digit loop of strconv integer parsing. -/
def parseDigits (l : List Char) : Option Nat :=
  if !l.isEmpty && l.all Char.isDigit then
    some (l.foldl (fun acc c => 10 * acc + (c.toNat - 48)) 0)
  else none

/-- Sign handling of the strconv integer parse over the character
list: an optional leading sign followed by one or more digits. -/
def parseSignedDigits (l : List Char) : Option Int :=
  match l with
  | [] => none
  | c :: rest =>
    if c = '+' then (parseDigits rest).map (fun n => Int.ofNat n)
    else if c = '-' then (parseDigits rest).map (fun n => -(Int.ofNat n))
    else (parseDigits (c :: rest)).map (fun n => Int.ofNat n)

/-- Integer parse, the strconv semantics used by the `rank,string` field
decode: an optional sign followed by one or more digits and nothing
else. -/
def parseGoInt (s : String) : Option Int :=
  parseSignedDigits s.toList

/-- Base-10 digit characters of a natural number, most significant
first (empty for zero). -/
def natDigitChars (n : Nat) : List Char :=
  (Nat.digits 10 n).reverse.map (fun d => Char.ofNat (48 + d))

/-- Decimal rendering of a natural number, as produced by strconv. -/
def formatNat (n : Nat) : String :=
  if n = 0 then "0" else String.mk (natDigitChars n)

/-- Decimal rendering of an integer, the strconv.Itoa output used both
for the `rank` JSON encoding and for the query parameters of
`Tickers`. -/
def formatInt (i : Int) : String :=
  if i < 0 then "-" ++ formatNat i.natAbs else formatNat i.toNat

/-- Decoding of the `Rank` field, tagged `rank,string`: the JSON value
must be a string whose content parses as an integer; an absent key or a
JSON `null` leaves the zero value `0`. -/
def decodeRankField (fields : List (String × Json)) : Except CmcError Int :=
  match lookupLast fields "rank" with
  | none => .ok 0
  | some .null => .ok 0
  | some (.str s) =>
    match parseGoInt s with
    | some n => .ok n
    | none => .error (.decode "invalid integer literal in rank field")
  | some _ => .error (.decode "invalid use of string option on rank field")

/-- Decoding of one `Ticker` record from the fields of a JSON object,
field by field along the struct declaration of cmc.go. -/
def decodeTicker (fields : List (String × Json)) : Except CmcError Ticker := do
  let idv ← decodeStrField fields "id"
  let name ← decodeStrField fields "name"
  let symbol ← decodeStrField fields "symbol"
  let rank ← decodeRankField fields
  let priceUSD ← decodeStrField fields "price_usd"
  let priceBTC ← decodeStrField fields "price_btc"
  let volume ← decodeStrField fields "24h_volume_usd"
  let marketCap ← decodeStrField fields "market_cap_usd"
  let supplyAvail ← decodeStrField fields "available_supply"
  let supplyTotal ← decodeStrField fields "total_supply"
  let pc1h ← decodeStrField fields "percent_change_1h"
  let pc24h ← decodeStrField fields "percent_change_24h"
  let pc7d ← decodeStrField fields "percent_change_7d"
  let lastUpdated ← decodeStrField fields "last_updated"
  pure ⟨idv, name, symbol, rank, priceUSD, priceBTC, volume, marketCap,
        supplyAvail, supplyTotal, pc1h, pc24h, pc7d, lastUpdated⟩

/-- Decoding of one `*Ticker` element: a JSON `null` yields a nil
pointer (`none`), an object yields a record, anything else is a type
error. -/
def decodeTickerPtr (j : Json) : Except CmcError (Option Ticker) :=
  match j with
  | .null => .ok none
  | .obj fields => (decodeTicker fields).map some
  | _ => .error (.decode "cannot unmarshal value into Ticker")

/-- Decoding of a response body into the `[]*Ticker` slice both JSON
operations start from.  A JSON `null` body sets the slice to nil
(`none`) with no error; an array body yields a fresh non-nil slice of
decoded elements; any other body is a type error. -/
def decodeTickerSlice (j : Json) : Except CmcError (Option (List (Option Ticker))) :=
  match j with
  | .null => .ok none
  | .arr es => (es.mapM decodeTickerPtr).map some
  | _ => .error (.decode "cannot unmarshal value into slice of Ticker")

/-- Go length of a possibly-nil slice: nil has length zero. -/
def goSliceLen (v : Option (List (Option Ticker))) : Nat :=
  match v with
  | none => 0
  | some l => l.length

/-- First element of a possibly-nil slice of ticker pointers, the
`tickers[0]` access of the `Ticker` operation (only reached when the
length is exactly one). -/
def goSliceHead (v : Option (List (Option Ticker))) : Option Ticker :=
  match v with
  | some (x :: _) => x
  | _ => none

/-- Default API base address of cmc.go. -/
def apiAddrDefault : String := "https://api.coinmarketcap.com/v1"

/-- Default website base address of cmc.go. -/
def websiteAddrDefault : String := "https://coinmarketcap.com/currencies"

/-- Characters left unescaped by the query escaping of net/url: ASCII
letters, digits, and the four unreserved marks. -/
def isUnreservedQueryChar (c : Char) : Bool :=
  c.isAlpha || c.isDigit || c = '-' || c = '_' || c = '.' || c = '~'

/-- Uppercase hexadecimal digit character. -/
def hexDigitChar (n : Nat) : Char :=
  if n < 10 then Char.ofNat (48 + n) else Char.ofNat (55 + n)

/-- Escaping of one character in a query value: unreserved characters
pass through, a space becomes a plus, anything else becomes a
percent-escape of its code point.  For characters above 127 net/url
escapes each UTF-8 byte; the values escaped by this client are the
ASCII outputs of strconv.Itoa and caller-supplied date strings, and no
claim inspects an escaped non-ASCII value. -/
def escapeQueryChar (c : Char) : List Char :=
  if isUnreservedQueryChar c then [c]
  else if c = ' ' then ['+']
  else ['%', hexDigitChar (c.toNat / 16 % 16), hexDigitChar (c.toNat % 16)]

/-- Query escaping of a value string, as applied by the Encode method
of url.Values. -/
def queryEscape (s : String) : String :=
  String.mk (s.toList.flatMap escapeQueryChar)

/-- Encoded query of the `Tickers` call: url.Values.Encode emits the
keys in sorted order, so `limit` precedes `start`. -/
def tickersQueryEncode (o : TickersOptions) : String :=
  "limit=" ++ queryEscape (formatInt o.Limit) ++ "&start=" ++ queryEscape (formatInt o.Start)

/-- URL built by `Tickers`: the ticker-listing path, with the encoded
query appended only when options were supplied. -/
def tickersURL (api : String) (opts : Option TickersOptions) : String :=
  match opts with
  | none => api ++ "/ticker"
  | some o => api ++ "/ticker" ++ "?" ++ tickersQueryEncode o

/-- URL built by `Ticker` for one coin id. -/
def tickerURL (api : String) (id : String) : String :=
  api ++ "/ticker/" ++ id

/-- Encoded query of the `Prices` call: url.Values.Encode emits the
keys in sorted order, so `end` precedes `start`. -/
def pricesQueryEncode (o : PricesOptions) : String :=
  "end=" ++ queryEscape o.End ++ "&start=" ++ queryEscape o.Start

/-- URL built by `Prices` for one coin id and optional date range. -/
def pricesURL (site : String) (id : String) (opts : Option PricesOptions) : String :=
  match opts with
  | none => site ++ "/" ++ id ++ "/historical-data"
  | some o => site ++ "/" ++ id ++ "/historical-data" ++ "?" ++ pricesQueryEncode o

/-- URL built by `Markets` for one coin id (the fragment is part of the
formatted string). -/
def marketsURL (site : String) (id : String) : String :=
  site ++ "/" ++ id ++ "#markets"

/-- Selection view of one historical-data table row, the input to the
goq decoding of the `pricesQ` struct: the texts of the nodes matching
`td.text-left` and the texts of the nodes matching
`[data-format-value]` inside the row, in document order. -/
structure PriceRowSel where
  dateCells : List String
  valCells : List String
deriving DecidableEq

/-- Decoded form of one `pricesQ` row: the date string and the six
value cells. -/
structure PricesQRow where
  date : String
  vals : List String
deriving DecidableEq

/-- Modelled from the spec: the goq decoding of one row of the
`pricesQ` struct (the goq library itself is a dependency, not part of
this repository).  A string field takes the concatenated text of its
matched nodes, and a fixed-size array field requires exactly as many
matched nodes as its length, failing the decode otherwise; a document
with zero matching rows therefore decodes to an empty row list with no
error. -/
def decodePriceRow (r : PriceRowSel) : Except CmcError PricesQRow :=
  if r.valCells.length = 6 then .ok ⟨String.join r.dateCells, r.valCells⟩
  else .error (.decode "row value cells do not fit the array length 6")

/-- Comma stripping of a value cell, translated from the `clean`
closure of `Prices` (strings.Replace with count -1 removes every
occurrence). -/
def clean (s : String) : String :=
  String.mk (s.toList.filter (fun c => c != ','))

/-- Mapping of one decoded row to a `Price` record, the loop body of
`Prices`. -/
def priceOfRow (r : PricesQRow) : Price :=
  { Date := r.date
    OpenUSD := clean (r.vals.getD 0 "")
    HighUSD := clean (r.vals.getD 1 "")
    LowUSD := clean (r.vals.getD 2 "")
    CloseUSD := clean (r.vals.getD 3 "")
    VolumeUSD24hr := clean (r.vals.getD 4 "")
    MarketCapUSD := clean (r.vals.getD 5 "") }

/-- Selection view of one markets table row, the input to the goq
decoding of the `marketsQ` struct: the texts of the nodes matching
`td a` and the texts of the nodes matching `td span` inside the row. -/
structure MarketRowSel where
  linkCells : List String
  spanCells : List String
deriving DecidableEq

/-- Decoded form of one `marketsQ` row: the two link texts and the
three span texts. -/
structure MarketsQRow where
  sourcePair : List String
  vals : List String
deriving DecidableEq

/-- Modelled from the spec: the goq decoding of one row of the
`marketsQ` struct, with the same array-arity rule as the prices rows
(fields are decoded in declaration order, the link pair first). -/
def decodeMarketRow (r : MarketRowSel) : Except CmcError MarketsQRow :=
  if r.linkCells.length = 2 then
    if r.spanCells.length = 3 then .ok ⟨r.linkCells, r.spanCells⟩
    else .error (.decode "row span cells do not fit the array length 3")
  else .error (.decode "row link cells do not fit the array length 2")

/-- Mapping of one decoded row to a `Market` record, the loop body of
`Markets`.  The value cells are stored verbatim: no comma stripping
happens on this path. -/
def marketOfRow (r : MarketsQRow) : Market :=
  { Source := r.sourcePair.getD 0 ""
    Pair := r.sourcePair.getD 1 ""
    VolumeUSD24hr := r.vals.getD 0 ""
    PriceUSD := r.vals.getD 1 ""
    VolumePercentage := r.vals.getD 2 "" }

/-- The `Tickers` operation.  `fetch` stands for request construction,
the HTTP round trip and the JSON text parse; everything after it is the
source: decode into `[]*Ticker` and return the slice with a nil error,
or return a nil slice with the first error.  The first component is the
returned slice (`none` is the Go nil slice), the second the returned
error. -/
def TickersOp (fetch : String → Except CmcError Json) (api : String)
    (opts : Option TickersOptions) :
    Option (List (Option Ticker)) × Option CmcError :=
  match fetch (tickersURL api opts) with
  | .error e => (none, some e)
  | .ok body =>
    match decodeTickerSlice body with
    | .error e => (none, some e)
    | .ok v => (v, none)

/-- The `Ticker` operation: decode the body into `[]*Ticker`, fail with
the cardinality error unless the length is exactly one, and return the
single element otherwise. -/
def TickerOp (fetch : String → Except CmcError Json) (api : String) (id : String) :
    Option Ticker × Option CmcError :=
  match fetch (tickerURL api id) with
  | .error e => (none, some e)
  | .ok body =>
    match decodeTickerSlice body with
    | .error e => (none, some e)
    | .ok v =>
      if goSliceLen v ≠ 1 then
        (none, some (.responseShape "unexpected error retreiving ticker"))
      else (goSliceHead v, none)

/-- The `Prices` operation: decode the page rows through the `pricesQ`
selectors, then map each row into a `Price` (the slice is created
non-nil by `make`). -/
def PricesOp (fetch : String → Except CmcError (List PriceRowSel)) (site : String)
    (id : String) (opts : Option PricesOptions) :
    Option (List Price) × Option CmcError :=
  match fetch (pricesURL site id opts) with
  | .error e => (none, some e)
  | .ok rows =>
    match rows.mapM decodePriceRow with
    | .error e => (none, some e)
    | .ok qrows => (some (qrows.map priceOfRow), none)

/-- The `Markets` operation: decode the page rows through the
`marketsQ` selectors, then map each row into a `Market`. -/
def MarketsOp (fetch : String → Except CmcError (List MarketRowSel)) (site : String)
    (id : String) : Option (List Market) × Option CmcError :=
  match fetch (marketsURL site id) with
  | .error e => (none, some e)
  | .ok rows =>
    match rows.mapM decodeMarketRow with
    | .error e => (none, some e)
    | .ok qrows => (some (qrows.map marketOfRow), none)

/-- JSON encoding of one `Ticker`, the Marshal output shape: one key
per tagged field in declaration order, with `Rank` rendered as the
decimal string demanded by the `,string` option. -/
def encodeTicker (t : Ticker) : Json :=
  .obj [("id", .str t.ID), ("name", .str t.Name), ("symbol", .str t.Symbol),
        ("rank", .str (formatInt t.Rank)),
        ("price_usd", .str t.PriceUSD), ("price_btc", .str t.PriceBTC),
        ("24h_volume_usd", .str t.VolumeUSD24hr),
        ("market_cap_usd", .str t.MarketCapUSD),
        ("available_supply", .str t.SupplyAvailable),
        ("total_supply", .str t.SupplyTotal),
        ("percent_change_1h", .str t.PercentChange1h),
        ("percent_change_24h", .str t.PercentChange24h),
        ("percent_change_7d", .str t.PercentChange7d),
        ("last_updated", .str t.LastUpdated)]

/-- JSON encoding of one `*Ticker` element: a nil pointer marshals to
`null`. -/
def encodeTickerPtr (x : Option Ticker) : Json :=
  match x with
  | none => .null
  | some t => encodeTicker t

/-- JSON encoding of a `[]*Ticker` value. -/
def encodeTickerList (l : List (Option Ticker)) : Json :=
  .arr (l.map encodeTickerPtr)

/-- Decoding of one `Price` record from the fields of a JSON object,
along the tags of the `Price` struct. -/
def decodePriceFields (fields : List (String × Json)) : Except CmcError Price := do
  let date ← decodeStrField fields "date"
  let openUSD ← decodeStrField fields "open"
  let highUSD ← decodeStrField fields "high_usd"
  let lowUSD ← decodeStrField fields "low_usd"
  let closeUSD ← decodeStrField fields "close_usd"
  let volume ← decodeStrField fields "24hr_volume_usd"
  let marketCap ← decodeStrField fields "market_cap_usd"
  pure ⟨date, openUSD, highUSD, lowUSD, closeUSD, volume, marketCap⟩

/-- Decoding of one `Price` element of a JSON array.  The records
round-tripped here are the ones returned by `Prices`, whose pointers
are all freshly constructed and never nil, so elements are modelled as
values. -/
def decodePriceItem (j : Json) : Except CmcError Price :=
  match j with
  | .obj fields => decodePriceFields fields
  | _ => .error (.decode "cannot unmarshal value into Price")

/-- JSON encoding of one `Price`. -/
def encodePrice (p : Price) : Json :=
  .obj [("date", .str p.Date), ("open", .str p.OpenUSD),
        ("high_usd", .str p.HighUSD), ("low_usd", .str p.LowUSD),
        ("close_usd", .str p.CloseUSD), ("24hr_volume_usd", .str p.VolumeUSD24hr),
        ("market_cap_usd", .str p.MarketCapUSD)]

/-- JSON encoding of a `[]*Price` value returned by `Prices`. -/
def encodePriceList (l : List Price) : Json :=
  .arr (l.map encodePrice)

/-- Decoding of a JSON array into the prices returned by a round
trip. -/
def decodePriceList (j : Json) : Except CmcError (List Price) :=
  match j with
  | .arr es => es.mapM decodePriceItem
  | _ => .error (.decode "cannot unmarshal value into slice of Price")

/-- Decoding of one `Market` record from the fields of a JSON object.
The fields tagged `-` (`VolumeUSD24hr` and `PriceUSD`) are never read
from JSON: they keep the zero value `""`. -/
def decodeMarketFields (fields : List (String × Json)) : Except CmcError Market := do
  let source ← decodeStrField fields "source"
  let pair ← decodeStrField fields "pair"
  let volumePercentage ← decodeStrField fields "volume_percent"
  pure ⟨source, pair, "", "", volumePercentage⟩

/-- Decoding of one `Market` element of a JSON array. -/
def decodeMarketItem (j : Json) : Except CmcError Market :=
  match j with
  | .obj fields => decodeMarketFields fields
  | _ => .error (.decode "cannot unmarshal value into Market")

/-- JSON encoding of one `Market`: the fields tagged `-` are omitted
from the object. -/
def encodeMarket (m : Market) : Json :=
  .obj [("source", .str m.Source), ("pair", .str m.Pair),
        ("volume_percent", .str m.VolumePercentage)]

/-- JSON encoding of a `[]*Market` value returned by `Markets`. -/
def encodeMarketList (l : List Market) : Json :=
  .arr (l.map encodeMarket)

/-- Decoding of a JSON array into the markets returned by a round
trip. -/
def decodeMarketList (j : Json) : Except CmcError (List Market) :=
  match j with
  | .arr es => es.mapM decodeMarketItem
  | _ => .error (.decode "cannot unmarshal value into slice of Market")

/-- Erasure performed by a `Market` JSON round trip: the two fields
tagged `-` come back as the zero value. -/
def marketScrub (m : Market) : Market :=
  { m with VolumeUSD24hr := "", PriceUSD := "" }

/-- Fields of the bitcoin object of the test fixture in cmc_test.go. -/
def bitcoinFields : List (String × Json) :=
  [("id", .str "bitcoin"), ("name", .str "Bitcoin"), ("symbol", .str "BTC"),
   ("rank", .str "1"), ("price_usd", .str "573.137"), ("price_btc", .str "1.0"),
   ("24h_volume_usd", .str "72855700.0"), ("market_cap_usd", .str "9080883500.0"),
   ("available_supply", .str "15844176.0"), ("total_supply", .str "15844176.0"),
   ("percent_change_1h", .str "0.04"), ("percent_change_24h", .str "-0.3"),
   ("percent_change_7d", .str "-0.57"), ("last_updated", .str "1472762067")]

/-- Ticker record expected for the bitcoin fixture. -/
def bitcoinTicker : Ticker :=
  ⟨"bitcoin", "Bitcoin", "BTC", 1, "573.137", "1.0", "72855700.0",
   "9080883500.0", "15844176.0", "15844176.0", "0.04", "-0.3", "-0.57",
   "1472762067"⟩

/-- Single-row historical-data fixture of the end-to-end scenario. -/
def scenarioPriceRow : PriceRowSel :=
  ⟨["2020-01-01"], ["1,000", "1,100", "900", "1,050", "500,000", "1,000,000"]⟩

/-- Single-row markets fixture: two link texts and three span texts. -/
def scenarioMarketRow : MarketRowSel :=
  ⟨["Bittrex", "BTC/USDT"], ["1000000", "573.1", "25.5"]⟩

/-!
Theorems.  First a block of shared helper lemmas about the decimal
format and parse functions, the query escaping, and the row decoders;
then one theorem (plus witness or counterexample) per claim.
-/

theorem char_digit_aux :
    ∀ d : Nat, d < 10 →
      (Char.ofNat (48 + d)).isDigit = true ∧ (Char.ofNat (48 + d)).toNat = 48 + d := by
  decide

theorem natDigitChars_all_digit (n : Nat) :
    ∀ c ∈ natDigitChars n, c.isDigit = true := by
  intro c hc
  simp only [natDigitChars, List.mem_map, List.mem_reverse] at hc
  obtain ⟨d, hd, rfl⟩ := hc
  exact (char_digit_aux d (Nat.digits_lt_base (by norm_num) hd)).1

theorem foldl_digit_chars (ds : List Nat) (a : Nat) (h : ∀ d ∈ ds, d < 10) :
    (ds.reverse.map (fun d => Char.ofNat (48 + d))).foldl
      (fun acc c => 10 * acc + (c.toNat - 48)) a
      = a * 10 ^ ds.length + Nat.ofDigits 10 ds := by
  induction ds generalizing a with
  | nil => simp
  | cons d tl ih =>
    have hd : d < 10 := h d (List.mem_cons_self d tl)
    have htl : ∀ x ∈ tl, x < 10 := fun x hx => h x (List.mem_cons_of_mem d hx)
    rw [List.reverse_cons, List.map_append, List.foldl_append, ih a htl]
    simp only [List.map_cons, List.map_nil, List.foldl_cons, List.foldl_nil,
      (char_digit_aux d hd).2, Nat.ofDigits_cons, List.length_cons, pow_succ]
    have : 48 + d - 48 = d := by omega
    rw [this]
    ring

theorem parseDigits_natDigitChars (n : Nat) (h : n ≠ 0) :
    parseDigits (natDigitChars n) = some n := by
  have hne : natDigitChars n ≠ [] := by
    simp only [natDigitChars, ne_eq, List.map_eq_nil_iff, List.reverse_eq_nil_iff]
    exact Nat.digits_ne_nil_iff_ne_zero.mpr h
  have hall : (natDigitChars n).all Char.isDigit = true := by
    rw [List.all_eq_true]
    exact natDigitChars_all_digit n
  unfold parseDigits
  rw [if_pos]
  · have hfold := foldl_digit_chars (Nat.digits 10 n) 0
      (fun d hd => Nat.digits_lt_base (by norm_num) hd)
    rw [Nat.ofDigits_digits] at hfold
    simp only [natDigitChars]
    rw [hfold]
    simp
  · simp only [Bool.and_eq_true, Bool.not_eq_true]
    exact ⟨by simpa [List.isEmpty_iff] using hne, hall⟩

theorem parseGoInt_formatInt (i : Int) : parseGoInt (formatInt i) = some i := by
  by_cases hneg : i < 0
  · have hne : i.natAbs ≠ 0 := by omega
    have hfmt : formatInt i = "-" ++ String.mk (natDigitChars i.natAbs) := by
      unfold formatInt formatNat
      rw [if_pos hneg, if_neg hne]
    have hdata : ("-" ++ String.mk (natDigitChars i.natAbs)).toList
        = '-' :: natDigitChars i.natAbs := by
      show ("-" ++ String.mk (natDigitChars i.natAbs)).data = _
      rw [String.data_append]
      rfl
    rw [hfmt]
    unfold parseGoInt
    rw [hdata]
    show (parseDigits (natDigitChars i.natAbs)).map (fun n => -(Int.ofNat n)) = some i
    rw [parseDigits_natDigitChars i.natAbs hne]
    show some (-((i.natAbs : Nat) : Int)) = some i
    exact congrArg some (by omega)
  · by_cases hz : i = 0
    · subst hz
      rfl
    · have hne : i.toNat ≠ 0 := by omega
      have hfmt : formatInt i = String.mk (natDigitChars i.toNat) := by
        unfold formatInt formatNat
        rw [if_neg hneg, if_neg hne]
      obtain ⟨c, cs, hl⟩ : ∃ c cs, natDigitChars i.toNat = c :: cs := by
        cases hcase : natDigitChars i.toNat with
        | nil =>
          exfalso
          have := parseDigits_natDigitChars i.toNat hne
          rw [hcase] at this
          simp [parseDigits] at this
        | cons c cs => exact ⟨c, cs, rfl⟩
      have hcdig : c.isDigit = true := by
        apply natDigitChars_all_digit i.toNat
        rw [hl]
        exact List.mem_cons_self c cs
      have hcp : ¬ c = '+' := by
        intro e
        subst e
        simp [Char.isDigit] at hcdig
      have hcm : ¬ c = '-' := by
        intro e
        subst e
        simp [Char.isDigit] at hcdig
      rw [hfmt]
      unfold parseGoInt
      rw [show (String.mk (natDigitChars i.toNat)).toList = natDigitChars i.toNat from rfl,
        hl]
      show (if c = '+' then (parseDigits cs).map (fun n => Int.ofNat n)
            else if c = '-' then (parseDigits cs).map (fun n => -(Int.ofNat n))
            else (parseDigits (c :: cs)).map (fun n => Int.ofNat n)) = some i
      rw [if_neg hcp, if_neg hcm, ← hl, parseDigits_natDigitChars i.toNat hne]
      show some (((i.toNat : Nat) : Int)) = some i
      exact congrArg some (by omega)

theorem unreserved_of_digit (c : Char) (h : c.isDigit = true) :
    isUnreservedQueryChar c = true := by
  simp [isUnreservedQueryChar, h]

theorem escapeQueryChar_unreserved (c : Char) (h : isUnreservedQueryChar c = true) :
    escapeQueryChar c = [c] := by
  unfold escapeQueryChar
  rw [if_pos h]

theorem flatMap_escape_id (l : List Char) (h : ∀ c ∈ l, isUnreservedQueryChar c = true) :
    l.flatMap escapeQueryChar = l := by
  induction l with
  | nil => rfl
  | cons c tl ih =>
    rw [List.flatMap_cons, escapeQueryChar_unreserved c (h c (List.mem_cons_self c tl)),
      ih (fun x hx => h x (List.mem_cons_of_mem c hx))]
    rfl

theorem formatInt_chars_unreserved (i : Int) :
    ∀ c ∈ (formatInt i).toList, isUnreservedQueryChar c = true := by
  intro c hc
  unfold formatInt formatNat at hc
  have hdig : ∀ n : Nat, ∀ c ∈ natDigitChars n, isUnreservedQueryChar c = true :=
    fun n x hx => unreserved_of_digit x (natDigitChars_all_digit n x hx)
  by_cases hneg : i < 0
  · rw [if_pos hneg] at hc
    by_cases hz : i.natAbs = 0
    · rw [if_pos hz] at hc
      simp only [show ("-" ++ "0").toList = ['-', '0'] from rfl, List.mem_cons,
        List.not_mem_nil, or_false] at hc
      rcases hc with h | h
      all_goals subst h
      all_goals decide
    · rw [if_neg hz] at hc
      rw [show ("-" ++ String.mk (natDigitChars i.natAbs)).toList
          = '-' :: natDigitChars i.natAbs from by
        show ("-" ++ String.mk (natDigitChars i.natAbs)).data = _
        rw [String.data_append]
        rfl] at hc
      rw [List.mem_cons] at hc
      rcases hc with h | h
      · subst h
        decide
      · exact hdig i.natAbs c h
  · rw [if_neg hneg] at hc
    by_cases hz : i.toNat = 0
    · rw [if_pos hz] at hc
      simp only [show ("0").toList = ['0'] from rfl, List.mem_cons,
        List.not_mem_nil, or_false] at hc
      subst hc
      decide
    · rw [if_neg hz] at hc
      exact hdig i.toNat c hc

theorem queryEscape_formatInt (i : Int) : queryEscape (formatInt i) = formatInt i := by
  unfold queryEscape
  rw [flatMap_escape_id (formatInt i).toList (formatInt_chars_unreserved i)]
  rfl

/-- A key bound to a JSON string decodes to that string verbatim. -/
theorem decodeStrField_of_lookup (fields : List (String × Json)) (key v : String)
    (h : lookupLast fields key = some (.str v)) :
    decodeStrField fields key = .ok v := by
  unfold decodeStrField
  rw [h]

/-- A rank key bound to a parsable numeric string decodes to the parsed
integer. -/
theorem decodeRankField_of_lookup (fields : List (String × Json)) (rankS : String)
    (rk : Int) (h : lookupLast fields "rank" = some (.str rankS))
    (hp : parseGoInt rankS = some rk) :
    decodeRankField fields = .ok rk := by
  unfold decodeRankField
  rw [h]
  show (match parseGoInt rankS with
        | some n => (Except.ok n : Except CmcError Int)
        | none => Except.error (CmcError.decode "invalid integer literal in rank field"))
      = Except.ok rk
  rw [hp]

/-- Decoding a JSON object whose ticker keys are all bound to strings
yields the record whose fields are those strings verbatim, with `Rank`
the parsed integer. -/
theorem decodeTickerPtr_full (fields : List (String × Json))
    (idS nameS symS rankS pUSD pBTC vol mcap sa stt p1 p24 p7 lu : String) (rk : Int)
    (h1 : lookupLast fields "id" = some (.str idS))
    (h2 : lookupLast fields "name" = some (.str nameS))
    (h3 : lookupLast fields "symbol" = some (.str symS))
    (h4 : lookupLast fields "rank" = some (.str rankS))
    (hp : parseGoInt rankS = some rk)
    (h5 : lookupLast fields "price_usd" = some (.str pUSD))
    (h6 : lookupLast fields "price_btc" = some (.str pBTC))
    (h7 : lookupLast fields "24h_volume_usd" = some (.str vol))
    (h8 : lookupLast fields "market_cap_usd" = some (.str mcap))
    (h9 : lookupLast fields "available_supply" = some (.str sa))
    (h10 : lookupLast fields "total_supply" = some (.str stt))
    (h11 : lookupLast fields "percent_change_1h" = some (.str p1))
    (h12 : lookupLast fields "percent_change_24h" = some (.str p24))
    (h13 : lookupLast fields "percent_change_7d" = some (.str p7))
    (h14 : lookupLast fields "last_updated" = some (.str lu)) :
    decodeTickerPtr (.obj fields)
      = .ok (some ⟨idS, nameS, symS, rk, pUSD, pBTC, vol, mcap, sa, stt, p1, p24, p7, lu⟩) := by
  show (decodeTicker fields).map some = _
  unfold decodeTicker
  rw [decodeStrField_of_lookup fields "id" idS h1,
    decodeStrField_of_lookup fields "name" nameS h2,
    decodeStrField_of_lookup fields "symbol" symS h3,
    decodeRankField_of_lookup fields rankS rk h4 hp,
    decodeStrField_of_lookup fields "price_usd" pUSD h5,
    decodeStrField_of_lookup fields "price_btc" pBTC h6,
    decodeStrField_of_lookup fields "24h_volume_usd" vol h7,
    decodeStrField_of_lookup fields "market_cap_usd" mcap h8,
    decodeStrField_of_lookup fields "available_supply" sa h9,
    decodeStrField_of_lookup fields "total_supply" stt h10,
    decodeStrField_of_lookup fields "percent_change_1h" p1 h11,
    decodeStrField_of_lookup fields "percent_change_24h" p24 h12,
    decodeStrField_of_lookup fields "percent_change_7d" p7 h13,
    decodeStrField_of_lookup fields "last_updated" lu h14]
  rfl

theorem decodeTickerPtr_encodeTickerPtr (x : Option Ticker) :
    decodeTickerPtr (encodeTickerPtr x) = .ok x := by
  cases x with
  | none => rfl
  | some t =>
    show decodeTickerPtr (Json.obj
      [("id", .str t.ID), ("name", .str t.Name), ("symbol", .str t.Symbol),
       ("rank", .str (formatInt t.Rank)),
       ("price_usd", .str t.PriceUSD), ("price_btc", .str t.PriceBTC),
       ("24h_volume_usd", .str t.VolumeUSD24hr),
       ("market_cap_usd", .str t.MarketCapUSD),
       ("available_supply", .str t.SupplyAvailable),
       ("total_supply", .str t.SupplyTotal),
       ("percent_change_1h", .str t.PercentChange1h),
       ("percent_change_24h", .str t.PercentChange24h),
       ("percent_change_7d", .str t.PercentChange7d),
       ("last_updated", .str t.LastUpdated)]) = .ok (some t)
    exact decodeTickerPtr_full _ _ _ _ _ _ _ _ _ _ _ _ _ _ _ t.Rank
      rfl rfl rfl rfl (parseGoInt_formatInt t.Rank) rfl rfl rfl rfl rfl rfl rfl rfl rfl rfl

theorem decodeTickerSlice_encodeTickerList (l : List (Option Ticker)) :
    decodeTickerSlice (encodeTickerList l) = .ok (some l) := by
  show ((l.map encodeTickerPtr).mapM decodeTickerPtr).map some = .ok (some l)
  have h : (l.map encodeTickerPtr).mapM decodeTickerPtr = .ok l := by
    induction l with
    | nil => rfl
    | cons x tl ih =>
      rw [List.map_cons, List.mapM_cons, decodeTickerPtr_encodeTickerPtr x]
      show (tl.map encodeTickerPtr).mapM decodeTickerPtr >>= (fun bs => pure (x :: bs))
        = .ok (x :: tl)
      rw [ih]
      rfl
  rw [h]
  rfl

/-- Row decoding succeeds on a list of rows whose value-cell count fits
the array arity, producing one decoded row per input row in order. -/
theorem mapM_decodePriceRow_ok (rows : List PriceRowSel)
    (h : ∀ r ∈ rows, r.valCells.length = 6) :
    rows.mapM decodePriceRow
      = .ok (rows.map fun r => (⟨String.join r.dateCells, r.valCells⟩ : PricesQRow)) := by
  induction rows with
  | nil => rfl
  | cons r tl ih =>
    have hr : decodePriceRow r = .ok ⟨String.join r.dateCells, r.valCells⟩ := by
      unfold decodePriceRow
      rw [if_pos (h r (List.mem_cons_self r tl))]
    rw [List.mapM_cons, hr]
    show tl.mapM decodePriceRow >>= (fun bs => pure (_ :: bs)) = _
    rw [ih (fun x hx => h x (List.mem_cons_of_mem r hx))]
    rfl

/-- Row decoding fails on a list containing a row whose value-cell
count does not fit the array arity. -/
theorem mapM_decodePriceRow_error (rows : List PriceRowSel) (r : PriceRowSel)
    (hr : r ∈ rows) (h : r.valCells.length ≠ 6) :
    ∃ e, rows.mapM decodePriceRow = .error e := by
  induction rows with
  | nil => cases hr
  | cons a tl ih =>
    rw [List.mem_cons] at hr
    rcases hr with heq | hmem
    · subst heq
      refine ⟨.decode "row value cells do not fit the array length 6", ?_⟩
      rw [List.mapM_cons]
      rw [show decodePriceRow r = .error (.decode "row value cells do not fit the array length 6") from by
        unfold decodePriceRow
        rw [if_neg h]]
      rfl
    · by_cases ha : a.valCells.length = 6
      · obtain ⟨e, he⟩ := ih hmem
        refine ⟨e, ?_⟩
        rw [List.mapM_cons]
        rw [show decodePriceRow a = .ok ⟨String.join a.dateCells, a.valCells⟩ from by
          unfold decodePriceRow
          rw [if_pos ha]]
        show tl.mapM decodePriceRow >>= (fun bs => pure (_ :: bs)) = _
        rw [he]
        rfl
      · refine ⟨.decode "row value cells do not fit the array length 6", ?_⟩
        rw [List.mapM_cons]
        rw [show decodePriceRow a = .error (.decode "row value cells do not fit the array length 6") from by
          unfold decodePriceRow
          rw [if_neg ha]]
        rfl

/-- Market row decoding succeeds on rows fitting both arities. -/
theorem mapM_decodeMarketRow_ok (rows : List MarketRowSel)
    (h : ∀ r ∈ rows, r.linkCells.length = 2 ∧ r.spanCells.length = 3) :
    rows.mapM decodeMarketRow
      = .ok (rows.map fun r => (⟨r.linkCells, r.spanCells⟩ : MarketsQRow)) := by
  induction rows with
  | nil => rfl
  | cons r tl ih =>
    have hr : decodeMarketRow r = .ok ⟨r.linkCells, r.spanCells⟩ := by
      unfold decodeMarketRow
      rw [if_pos (h r (List.mem_cons_self r tl)).1, if_pos (h r (List.mem_cons_self r tl)).2]
    rw [List.mapM_cons, hr]
    show tl.mapM decodeMarketRow >>= (fun bs => pure (_ :: bs)) = _
    rw [ih (fun x hx => h x (List.mem_cons_of_mem r hx))]
    rfl

/-- Success shape of `Prices` on a document whose rows all fit the
column arity: one record per row, in order, through `priceOfRow`. -/
theorem pricesOp_ok (fetch : String → Except CmcError (List PriceRowSel))
    (site id : String) (opts : Option PricesOptions) (rows : List PriceRowSel)
    (hf : fetch (pricesURL site id opts) = .ok rows)
    (h : ∀ r ∈ rows, r.valCells.length = 6) :
    PricesOp fetch site id opts
      = (some (rows.map fun r =>
          priceOfRow ⟨String.join r.dateCells, r.valCells⟩), none) := by
  unfold PricesOp
  rw [hf]
  show (match rows.mapM decodePriceRow with
        | .error e => (none, some e)
        | .ok qrows => (some (qrows.map priceOfRow), none))
      = (some (rows.map fun r =>
          priceOfRow ⟨String.join r.dateCells, r.valCells⟩), (none : Option CmcError))
  rw [mapM_decodePriceRow_ok rows h]
  show (some (((rows.map fun r => (⟨String.join r.dateCells, r.valCells⟩ : PricesQRow)).map
      priceOfRow)), (none : Option CmcError)) = _
  rw [List.map_map]
  rfl

/-- Success shape of `Markets` on a document whose rows all fit the
column arities. -/
theorem marketsOp_ok (fetch : String → Except CmcError (List MarketRowSel))
    (site id : String) (rows : List MarketRowSel)
    (hf : fetch (marketsURL site id) = .ok rows)
    (h : ∀ r ∈ rows, r.linkCells.length = 2 ∧ r.spanCells.length = 3) :
    MarketsOp fetch site id
      = (some (rows.map fun r => marketOfRow ⟨r.linkCells, r.spanCells⟩), none) := by
  unfold MarketsOp
  rw [hf]
  show (match rows.mapM decodeMarketRow with
        | .error e => (none, some e)
        | .ok qrows => (some (qrows.map marketOfRow), none))
      = (some (rows.map fun r => marketOfRow ⟨r.linkCells, r.spanCells⟩),
         (none : Option CmcError))
  rw [mapM_decodeMarketRow_ok rows h]
  show (some (((rows.map fun r => (⟨r.linkCells, r.spanCells⟩ : MarketsQRow)).map
      marketOfRow)), (none : Option CmcError)) = _
  rw [List.map_map]
  rfl

/-- JSON round trip for one `Price` record. -/
theorem decodePriceItem_encodePrice (p : Price) :
    decodePriceItem (encodePrice p) = .ok p := by
  rfl

/-- JSON round trip for a list of `Price` records. -/
theorem decodePriceList_encodePriceList (l : List Price) :
    decodePriceList (encodePriceList l) = .ok l := by
  show (l.map encodePrice).mapM decodePriceItem = .ok l
  induction l with
  | nil => rfl
  | cons p tl ih =>
    rw [List.map_cons, List.mapM_cons, decodePriceItem_encodePrice p]
    show (tl.map encodePrice).mapM decodePriceItem >>= (fun bs => pure (p :: bs)) = _
    rw [ih]
    rfl

/-- JSON round trip for one `Market` record: the fields tagged `-` come
back as the zero value. -/
theorem decodeMarketItem_encodeMarket (m : Market) :
    decodeMarketItem (encodeMarket m) = .ok (marketScrub m) := by
  rfl

/-- JSON round trip for a list of `Market` records. -/
theorem decodeMarketList_encodeMarketList (l : List Market) :
    decodeMarketList (encodeMarketList l) = .ok (l.map marketScrub) := by
  show (l.map encodeMarket).mapM decodeMarketItem = .ok (l.map marketScrub)
  induction l with
  | nil => rfl
  | cons m tl ih =>
    rw [List.map_cons, List.mapM_cons, decodeMarketItem_encodeMarket m]
    show (tl.map encodeMarket).mapM decodeMarketItem >>= (fun bs => pure (marketScrub m :: bs)) = _
    rw [ih]
    rfl

/-- A successful slice decode yields the nil slice exactly for the
JSON `null` body. -/
theorem decodeTickerSlice_none_iff (body : Json) (v : Option (List (Option Ticker)))
    (hd : decodeTickerSlice body = .ok v) : v = none ↔ body = .null := by
  cases body with
  | null =>
    have hv : v = none := by
      injection hd with h
      exact h.symm
    simp [hv]
  | arr es =>
    have hd2 : (es.mapM decodeTickerPtr).map some = .ok v := hd
    cases hm : es.mapM decodeTickerPtr with
    | error e =>
      rw [hm] at hd2
      exact Except.noConfusion hd2
    | ok l =>
      rw [hm] at hd2
      have hv : v = some l := by
        injection hd2 with h
        exact h.symm
      subst hv
      constructor
      · intro h
        exact Option.noConfusion h
      · intro h
        exact Json.noConfusion h
  | bool b => exact Except.noConfusion hd
  | num lit => exact Except.noConfusion hd
  | str s => exact Except.noConfusion hd
  | obj fields => exact Except.noConfusion hd

/-- C1: for a single-ticker response body decoding as a JSON array, the
`Ticker` operation fails with the cardinality error (the spec's
ResponseShapeError) whenever the decoded length is not exactly one, and
returns the single decoded element when it is. -/
theorem ticker_cardinality (fetch : String → Except CmcError Json) (api id : String)
    (es : List Json) (l : List (Option Ticker))
    (hf : fetch (tickerURL api id) = .ok (.arr es))
    (hd : es.mapM decodeTickerPtr = .ok l) :
    (l.length ≠ 1 →
      TickerOp fetch api id
        = (none, some (.responseShape "unexpected error retreiving ticker")))
    ∧ (∀ x, l = [x] → TickerOp fetch api id = (x, none)) := by
  have hslice : decodeTickerSlice (.arr es) = .ok (some l) := by
    show (es.mapM decodeTickerPtr).map some = _
    rw [hd]
    rfl
  constructor
  · intro hne
    unfold TickerOp
    rw [hf]
    show (match decodeTickerSlice (Json.arr es) with
          | .error e => (none, some e)
          | .ok v =>
            if goSliceLen v ≠ 1 then
              (none, some (.responseShape "unexpected error retreiving ticker"))
            else (goSliceHead v, none))
        = ((none : Option Ticker),
           some (CmcError.responseShape "unexpected error retreiving ticker"))
    rw [hslice]
    show (if goSliceLen (some l) ≠ 1 then
            ((none : Option Ticker),
             some (CmcError.responseShape "unexpected error retreiving ticker"))
          else (goSliceHead (some l), none)) = _
    rw [if_pos (show goSliceLen (some l) ≠ 1 from hne)]
  · intro x hx
    subst hx
    unfold TickerOp
    rw [hf]
    show (match decodeTickerSlice (Json.arr es) with
          | .error e => (none, some e)
          | .ok v =>
            if goSliceLen v ≠ 1 then
              (none, some (.responseShape "unexpected error retreiving ticker"))
            else (goSliceHead v, none))
        = (x, (none : Option CmcError))
    rw [hslice]
    show (if goSliceLen (some [x]) ≠ 1 then
            ((none : Option Ticker),
             some (CmcError.responseShape "unexpected error retreiving ticker"))
          else (goSliceHead (some [x]), none)) = (x, none)
    rw [if_neg (show ¬ goSliceLen (some [x]) ≠ 1 from by simp [goSliceLen])]
    rfl

/-- Witness for C1: the empty body `[]` decodes to a zero-length list
and the cardinality error is returned with a nil record. -/
theorem ticker_cardinality_witness :
    TickerOp (fun _ => .ok (.arr [])) apiAddrDefault "bitcoin"
      = (none, some (.responseShape "unexpected error retreiving ticker")) :=
  (ticker_cardinality (fun _ => .ok (.arr [])) apiAddrDefault "bitcoin" [] [] rfl rfl).1
    (by decide)

/-- C2: decoding a ticker object carries every string field verbatim
into the record and parses `Rank` from its numeric string, and the
`Tickers` operation returns exactly the decoded records. -/
theorem tickers_fields_verbatim (fields : List (String × Json))
    (idS nameS symS rankS pUSD pBTC vol mcap sa stt p1 p24 p7 lu : String) (rk : Int)
    (h1 : lookupLast fields "id" = some (.str idS))
    (h2 : lookupLast fields "name" = some (.str nameS))
    (h3 : lookupLast fields "symbol" = some (.str symS))
    (h4 : lookupLast fields "rank" = some (.str rankS))
    (hp : parseGoInt rankS = some rk)
    (h5 : lookupLast fields "price_usd" = some (.str pUSD))
    (h6 : lookupLast fields "price_btc" = some (.str pBTC))
    (h7 : lookupLast fields "24h_volume_usd" = some (.str vol))
    (h8 : lookupLast fields "market_cap_usd" = some (.str mcap))
    (h9 : lookupLast fields "available_supply" = some (.str sa))
    (h10 : lookupLast fields "total_supply" = some (.str stt))
    (h11 : lookupLast fields "percent_change_1h" = some (.str p1))
    (h12 : lookupLast fields "percent_change_24h" = some (.str p24))
    (h13 : lookupLast fields "percent_change_7d" = some (.str p7))
    (h14 : lookupLast fields "last_updated" = some (.str lu)) :
    decodeTickerPtr (.obj fields)
      = .ok (some ⟨idS, nameS, symS, rk, pUSD, pBTC, vol, mcap, sa, stt, p1, p24, p7, lu⟩)
    ∧ ∀ (fetch : String → Except CmcError Json) (api : String)
        (opts : Option TickersOptions) (es : List Json) (l : List (Option Ticker)),
        fetch (tickersURL api opts) = .ok (.arr es) →
        es.mapM decodeTickerPtr = .ok l →
        TickersOp fetch api opts = (some l, none) := by
  constructor
  · exact decodeTickerPtr_full fields idS nameS symS rankS pUSD pBTC vol mcap sa stt
      p1 p24 p7 lu rk h1 h2 h3 h4 hp h5 h6 h7 h8 h9 h10 h11 h12 h13 h14
  · intro fetch api opts es l hf hdec
    unfold TickersOp
    rw [hf]
    show (match decodeTickerSlice (Json.arr es) with
          | .error e => (none, some e)
          | .ok v => (v, none))
        = (some l, (none : Option CmcError))
    rw [show decodeTickerSlice (Json.arr es) = .ok (some l) from by
      show (es.mapM decodeTickerPtr).map some = _
      rw [hdec]
      rfl]

/-- Witness for C2 on the bitcoin fixture of cmc_test.go. -/
theorem tickers_fields_verbatim_witness :
    decodeTickerPtr (.obj bitcoinFields) = .ok (some bitcoinTicker)
    ∧ TickersOp (fun _ => .ok (.arr [.obj bitcoinFields])) apiAddrDefault none
        = (some [some bitcoinTicker], none) := by
  have h := tickers_fields_verbatim bitcoinFields "bitcoin" "Bitcoin" "BTC" "1"
    "573.137" "1.0" "72855700.0" "9080883500.0" "15844176.0" "15844176.0"
    "0.04" "-0.3" "-0.57" "1472762067" 1
    rfl rfl rfl rfl rfl rfl rfl rfl rfl rfl rfl rfl rfl rfl rfl
  exact ⟨h.1, h.2 (fun _ => .ok (.arr [.obj bitcoinFields])) apiAddrDefault none
    [.obj bitcoinFields] [some bitcoinTicker] rfl
    (by
      rw [List.mapM_cons]
      rw [h.1]
      rfl)⟩

/-- C8: the ticker-listing URL carries no query when no options are
supplied, and exactly the integer parameters `limit` and `start` (in
the sorted key order of url.Values.Encode) when options are
supplied. -/
theorem tickers_url_params :
    (∀ api : String, tickersURL api none = api ++ "/ticker")
    ∧ (∀ (api : String) (o : TickersOptions),
        tickersURL api (some o)
          = api ++ "/ticker" ++ "?"
            ++ ("limit=" ++ formatInt o.Limit ++ "&start=" ++ formatInt o.Start)) := by
  constructor
  · intro api
    rfl
  · intro api o
    unfold tickersURL tickersQueryEncode
    show api ++ "/ticker" ++ "?"
        ++ ("limit=" ++ queryEscape (formatInt o.Limit)
            ++ "&start=" ++ queryEscape (formatInt o.Start)) = _
    rw [queryEscape_formatInt, queryEscape_formatInt]

/-- C3: every value cell of every extracted row is stored with each
comma character removed (the stored character list is the comma-free
filter of the cell text), and the single-row end-to-end scenario yields
the expected record. -/
theorem prices_comma_stripping :
    (∀ (fetch : String → Except CmcError (List PriceRowSel)) (site id : String)
        (opts : Option PricesOptions) (rows : List PriceRowSel),
        fetch (pricesURL site id opts) = .ok rows →
        (∀ r ∈ rows, r.valCells.length = 6) →
        PricesOp fetch site id opts
          = (some (rows.map fun r =>
              priceOfRow ⟨String.join r.dateCells, r.valCells⟩), none))
    ∧ (∀ r : PriceRowSel,
        ((priceOfRow ⟨String.join r.dateCells, r.valCells⟩).OpenUSD).data
            = ((r.valCells.getD 0 "").data.filter (fun c => c != ','))
        ∧ ((priceOfRow ⟨String.join r.dateCells, r.valCells⟩).HighUSD).data
            = ((r.valCells.getD 1 "").data.filter (fun c => c != ','))
        ∧ ((priceOfRow ⟨String.join r.dateCells, r.valCells⟩).LowUSD).data
            = ((r.valCells.getD 2 "").data.filter (fun c => c != ','))
        ∧ ((priceOfRow ⟨String.join r.dateCells, r.valCells⟩).CloseUSD).data
            = ((r.valCells.getD 3 "").data.filter (fun c => c != ','))
        ∧ ((priceOfRow ⟨String.join r.dateCells, r.valCells⟩).VolumeUSD24hr).data
            = ((r.valCells.getD 4 "").data.filter (fun c => c != ','))
        ∧ ((priceOfRow ⟨String.join r.dateCells, r.valCells⟩).MarketCapUSD).data
            = ((r.valCells.getD 5 "").data.filter (fun c => c != ',')))
    ∧ PricesOp (fun _ => .ok [scenarioPriceRow]) websiteAddrDefault "bitcoin" none
        = (some [⟨"2020-01-01", "1000", "1100", "900", "1050", "500000", "1000000"⟩],
           none) := by
  refine ⟨?_, ?_, ?_⟩
  · intro fetch site id opts rows hf h
    exact pricesOp_ok fetch site id opts rows hf h
  · intro r
    exact ⟨rfl, rfl, rfl, rfl, rfl, rfl⟩
  · decide

/-- Witness for C3 on the scenario fixture. -/
theorem prices_comma_stripping_witness :
    PricesOp (fun _ => .ok [scenarioPriceRow]) websiteAddrDefault "bitcoin" none
      = (some ([scenarioPriceRow].map fun r =>
          priceOfRow ⟨String.join r.dateCells, r.valCells⟩), none) :=
  prices_comma_stripping.1 (fun _ => .ok [scenarioPriceRow]) websiteAddrDefault
    "bitcoin" none [scenarioPriceRow] rfl (by decide)

/-- C4: `Prices` produces one record per extracted row, in document
order, mapping the date cell to `Date` and the six value cells
positionally to open, high, low, close, volume and market cap. -/
theorem prices_row_mapping (fetch : String → Except CmcError (List PriceRowSel))
    (site id : String) (opts : Option PricesOptions) (rows : List PriceRowSel)
    (hf : fetch (pricesURL site id opts) = .ok rows)
    (h : ∀ r ∈ rows, r.valCells.length = 6) :
    PricesOp fetch site id opts
      = (some (rows.map fun r =>
          priceOfRow ⟨String.join r.dateCells, r.valCells⟩), none)
    ∧ (rows.map fun r =>
        priceOfRow ⟨String.join r.dateCells, r.valCells⟩).length = rows.length
    ∧ ∀ q : PricesQRow,
        priceOfRow q
          = ⟨q.date, clean (q.vals.getD 0 ""), clean (q.vals.getD 1 ""),
             clean (q.vals.getD 2 ""), clean (q.vals.getD 3 ""),
             clean (q.vals.getD 4 ""), clean (q.vals.getD 5 "")⟩ := by
  refine ⟨pricesOp_ok fetch site id opts rows hf h, List.length_map rows _, ?_⟩
  intro q
  rfl

/-- Witness for C4 on a two-row document, checking order and the
positional mapping concretely. -/
theorem prices_row_mapping_witness :
    PricesOp (fun _ => .ok [scenarioPriceRow,
        ⟨["2020-01-02"], ["2", "3", "4", "5", "6", "7"]⟩])
      websiteAddrDefault "ethereum" none
      = (some ([scenarioPriceRow,
          ⟨["2020-01-02"], ["2", "3", "4", "5", "6", "7"]⟩].map fun r =>
            priceOfRow ⟨String.join r.dateCells, r.valCells⟩), none) :=
  (prices_row_mapping (fun _ => .ok [scenarioPriceRow,
      ⟨["2020-01-02"], ["2", "3", "4", "5", "6", "7"]⟩])
    websiteAddrDefault "ethereum" none
    [scenarioPriceRow, ⟨["2020-01-02"], ["2", "3", "4", "5", "6", "7"]⟩]
    rfl (by decide)).1

/-- C5: `Markets` returns one record per extracted row, in document
order, with `Source` and `Pair` the row's two link texts and the three
span cells mapped in order to volume, price and volume percentage. -/
theorem markets_row_mapping (fetch : String → Except CmcError (List MarketRowSel))
    (site id : String) (rows : List MarketRowSel)
    (hf : fetch (marketsURL site id) = .ok rows)
    (h : ∀ r ∈ rows, r.linkCells.length = 2 ∧ r.spanCells.length = 3) :
    MarketsOp fetch site id
      = (some (rows.map fun r => marketOfRow ⟨r.linkCells, r.spanCells⟩), none)
    ∧ (rows.map fun r => marketOfRow ⟨r.linkCells, r.spanCells⟩).length = rows.length
    ∧ ∀ q : MarketsQRow,
        marketOfRow q
          = ⟨q.sourcePair.getD 0 "", q.sourcePair.getD 1 "",
             q.vals.getD 0 "", q.vals.getD 1 "", q.vals.getD 2 ""⟩ := by
  refine ⟨marketsOp_ok fetch site id rows hf h, List.length_map rows _, ?_⟩
  intro q
  rfl

/-- Witness for C5 on a one-row markets fixture. -/
theorem markets_row_mapping_witness :
    MarketsOp (fun _ => .ok [scenarioMarketRow]) websiteAddrDefault "bitcoin"
      = (some ([scenarioMarketRow].map fun r =>
          marketOfRow ⟨r.linkCells, r.spanCells⟩), none) :=
  (markets_row_mapping (fun _ => .ok [scenarioMarketRow]) websiteAddrDefault
    "bitcoin" [scenarioMarketRow] rfl (by decide)).1

/-- Counterexample for C6: a `Market` record with a nonempty
`VolumeUSD24hr` does not survive the JSON round trip, because the field
carries the tag `-` and is dropped by the encoder. -/
theorem market_roundtrip_counterexample :
    decodeMarketList (encodeMarketList
        [⟨"Bittrex", "BTC/USDT", "1000000", "573.1", "25.5"⟩])
      ≠ .ok [⟨"Bittrex", "BTC/USDT", "1000000", "573.1", "25.5"⟩] := by
  decide

/-- C6 amended: the JSON round trip reproduces `Ticker` and `Price`
sequences exactly; a `Market` sequence comes back with the two
non-serialized fields reset to empty, so structural equality holds
exactly when those fields were empty. -/
theorem json_roundtrip_amended :
    (∀ l : List (Option Ticker), decodeTickerSlice (encodeTickerList l) = .ok (some l))
    ∧ (∀ l : List Price, decodePriceList (encodePriceList l) = .ok l)
    ∧ (∀ l : List Market,
        decodeMarketList (encodeMarketList l) = .ok (l.map marketScrub))
    ∧ (∀ m : Market, marketScrub m = m ↔ m.VolumeUSD24hr = "" ∧ m.PriceUSD = "") := by
  refine ⟨decodeTickerSlice_encodeTickerList, decodePriceList_encodePriceList,
    decodeMarketList_encodeMarketList, ?_⟩
  intro m
  cases m with
  | mk source pair vol price pct =>
    constructor
    · intro h
      injection h with h1 h2 h3 h4 h5
      exact ⟨h3.symm, h4.symm⟩
    · intro ⟨h1, h2⟩
      subst h1
      subst h2
      rfl

/-- Counterexample for C7: a well-formed document with zero matching
table rows makes `Prices` and `Markets` succeed with an empty sequence
and a nil error, instead of failing with an extraction error. -/
theorem extraction_empty_counterexample :
    PricesOp (fun _ => .ok []) websiteAddrDefault "bitcoin" none = (some [], none)
    ∧ MarketsOp (fun _ => .ok []) websiteAddrDefault "bitcoin" = (some [], none) :=
  ⟨rfl, rfl⟩

/-- C7 amended: on a document with zero matching rows both scraping
operations succeed with the empty sequence (indistinguishable from a
legitimately empty result); a decode failure only arises when a matched
row does not fit the fixed cell arity, and it is then returned as an
error with a nil result. -/
theorem extraction_empty_amended :
    (∀ (fetch : String → Except CmcError (List PriceRowSel)) (site id : String)
        (opts : Option PricesOptions),
        fetch (pricesURL site id opts) = .ok [] →
        PricesOp fetch site id opts = (some [], none))
    ∧ (∀ (fetch : String → Except CmcError (List MarketRowSel)) (site id : String),
        fetch (marketsURL site id) = .ok [] →
        MarketsOp fetch site id = (some [], none))
    ∧ (∀ (fetch : String → Except CmcError (List PriceRowSel)) (site id : String)
        (opts : Option PricesOptions) (rows : List PriceRowSel) (r : PriceRowSel),
        fetch (pricesURL site id opts) = .ok rows →
        r ∈ rows → r.valCells.length ≠ 6 →
        ∃ e, PricesOp fetch site id opts = (none, some e)) := by
  refine ⟨?_, ?_, ?_⟩
  · intro fetch site id opts hf
    have := pricesOp_ok fetch site id opts [] hf (by intro r hr; cases hr)
    simpa using this
  · intro fetch site id hf
    have := marketsOp_ok fetch site id [] hf (by intro r hr; cases hr)
    simpa using this
  · intro fetch site id opts rows r hf hmem harity
    obtain ⟨e, he⟩ := mapM_decodePriceRow_error rows r hmem harity
    refine ⟨e, ?_⟩
    unfold PricesOp
    rw [hf]
    show (match rows.mapM decodePriceRow with
          | .error e => (none, some e)
          | .ok qrows => (some (qrows.map priceOfRow), none))
        = ((none : Option (List Price)), some e)
    rw [he]

/-- Witness for C7 amended: the zero-row success and the arity-failure
error, each on a concrete document. -/
theorem extraction_empty_amended_witness :
    PricesOp (fun _ => .ok []) websiteAddrDefault "ethereum" none = (some [], none)
    ∧ MarketsOp (fun _ => .ok []) websiteAddrDefault "ethereum" = (some [], none)
    ∧ ∃ e, PricesOp (fun _ => .ok [⟨["2020-01-01"], ["1"]⟩])
        websiteAddrDefault "ethereum" none = (none, some e) :=
  ⟨extraction_empty_amended.1 (fun _ => .ok []) websiteAddrDefault "ethereum" none rfl,
   extraction_empty_amended.2.1 (fun _ => .ok []) websiteAddrDefault "ethereum" rfl,
   extraction_empty_amended.2.2 (fun _ => .ok [⟨["2020-01-01"], ["1"]⟩])
     websiteAddrDefault "ethereum" none [⟨["2020-01-01"], ["1"]⟩]
     ⟨["2020-01-01"], ["1"]⟩ rfl (List.mem_cons_self _ _) (by decide)⟩

/-- C9: every failure of any of the four operations is returned with a
nil result (all-or-nothing, no partial records), and each operation
consults the transport only at its single built URL (no retry and no
fallback request). -/
theorem all_or_nothing :
    (∀ (fetch : String → Except CmcError Json) (api : String)
        (opts : Option TickersOptions),
        (TickersOp fetch api opts).2.isSome = true → (TickersOp fetch api opts).1 = none)
    ∧ (∀ (fetch : String → Except CmcError Json) (api id : String),
        (TickerOp fetch api id).2.isSome = true → (TickerOp fetch api id).1 = none)
    ∧ (∀ (fetch : String → Except CmcError (List PriceRowSel)) (site id : String)
        (opts : Option PricesOptions),
        (PricesOp fetch site id opts).2.isSome = true →
          (PricesOp fetch site id opts).1 = none)
    ∧ (∀ (fetch : String → Except CmcError (List MarketRowSel)) (site id : String),
        (MarketsOp fetch site id).2.isSome = true → (MarketsOp fetch site id).1 = none)
    ∧ (∀ (f g : String → Except CmcError Json) (api : String)
        (opts : Option TickersOptions),
        f (tickersURL api opts) = g (tickersURL api opts) →
          TickersOp f api opts = TickersOp g api opts)
    ∧ (∀ (f g : String → Except CmcError Json) (api id : String),
        f (tickerURL api id) = g (tickerURL api id) →
          TickerOp f api id = TickerOp g api id)
    ∧ (∀ (f g : String → Except CmcError (List PriceRowSel)) (site id : String)
        (opts : Option PricesOptions),
        f (pricesURL site id opts) = g (pricesURL site id opts) →
          PricesOp f site id opts = PricesOp g site id opts)
    ∧ (∀ (f g : String → Except CmcError (List MarketRowSel)) (site id : String),
        f (marketsURL site id) = g (marketsURL site id) →
          MarketsOp f site id = MarketsOp g site id) := by
  refine ⟨?_, ?_, ?_, ?_, ?_, ?_, ?_, ?_⟩
  · intro fetch api opts h
    unfold TickersOp at h ⊢
    cases hf : fetch (tickersURL api opts) with
    | error e => rfl
    | ok body =>
      rw [hf] at h
      have h' : (match decodeTickerSlice body with
                 | .error e => ((none : Option (List (Option Ticker))), some e)
                 | .ok v => (v, none)).2.isSome = true := h
      show (match decodeTickerSlice body with
            | .error e => ((none : Option (List (Option Ticker))), some e)
            | .ok v => (v, none)).1 = none
      cases hd : decodeTickerSlice body with
      | error e => rfl
      | ok v =>
        rw [hd] at h'
        exact Bool.noConfusion h'
  · intro fetch api id h
    unfold TickerOp at h ⊢
    cases hf : fetch (tickerURL api id) with
    | error e => rfl
    | ok body =>
      rw [hf] at h
      have h' : (match decodeTickerSlice body with
                 | .error e => ((none : Option Ticker), some e)
                 | .ok v =>
                   if goSliceLen v ≠ 1 then
                     (none, some (.responseShape "unexpected error retreiving ticker"))
                   else (goSliceHead v, none)).2.isSome = true := h
      show (match decodeTickerSlice body with
            | .error e => ((none : Option Ticker), some e)
            | .ok v =>
              if goSliceLen v ≠ 1 then
                (none, some (.responseShape "unexpected error retreiving ticker"))
              else (goSliceHead v, none)).1 = none
      cases hd : decodeTickerSlice body with
      | error e => rfl
      | ok v =>
        rw [hd] at h'
        have h2 : (if goSliceLen v ≠ 1 then
              ((none : Option Ticker),
               some (CmcError.responseShape "unexpected error retreiving ticker"))
            else (goSliceHead v, none)).2.isSome = true := h'
        show (if goSliceLen v ≠ 1 then
              ((none : Option Ticker),
               some (CmcError.responseShape "unexpected error retreiving ticker"))
            else (goSliceHead v, none)).1 = none
        by_cases hq : goSliceLen v ≠ 1
        · rw [if_pos hq]
        · rw [if_neg hq] at h2
          exact Bool.noConfusion h2
  · intro fetch site id opts h
    unfold PricesOp at h ⊢
    cases hf : fetch (pricesURL site id opts) with
    | error e => rfl
    | ok rows =>
      rw [hf] at h
      have h' : (match rows.mapM decodePriceRow with
                 | .error e => ((none : Option (List Price)), some e)
                 | .ok qrows => (some (qrows.map priceOfRow), none)).2.isSome = true := h
      show (match rows.mapM decodePriceRow with
            | .error e => ((none : Option (List Price)), some e)
            | .ok qrows => (some (qrows.map priceOfRow), none)).1 = none
      cases hd : rows.mapM decodePriceRow with
      | error e => rfl
      | ok qrows =>
        rw [hd] at h'
        exact Bool.noConfusion h'
  · intro fetch site id h
    unfold MarketsOp at h ⊢
    cases hf : fetch (marketsURL site id) with
    | error e => rfl
    | ok rows =>
      rw [hf] at h
      have h' : (match rows.mapM decodeMarketRow with
                 | .error e => ((none : Option (List Market)), some e)
                 | .ok qrows => (some (qrows.map marketOfRow), none)).2.isSome = true := h
      show (match rows.mapM decodeMarketRow with
            | .error e => ((none : Option (List Market)), some e)
            | .ok qrows => (some (qrows.map marketOfRow), none)).1 = none
      cases hd : rows.mapM decodeMarketRow with
      | error e => rfl
      | ok qrows =>
        rw [hd] at h'
        exact Bool.noConfusion h'
  · intro f g api opts h
    unfold TickersOp
    rw [h]
  · intro f g api id h
    unfold TickerOp
    rw [h]
  · intro f g site id opts h
    unfold PricesOp
    rw [h]
  · intro f g site id h
    unfold MarketsOp
    rw [h]

/-- Witness for C9: each operation at a concrete failing input returns
a nil result. -/
theorem all_or_nothing_witness :
    (TickersOp (fun _ => .error (.transport "connection refused"))
        apiAddrDefault none).1 = none
    ∧ (TickerOp (fun _ => .ok (.arr [])) apiAddrDefault "bitcoin").1 = none
    ∧ (PricesOp (fun _ => .error (.transport "connection refused"))
        websiteAddrDefault "bitcoin" none).1 = none
    ∧ (MarketsOp (fun _ => .error (.transport "connection refused"))
        websiteAddrDefault "bitcoin").1 = none :=
  ⟨all_or_nothing.1 (fun _ => .error (.transport "connection refused"))
      apiAddrDefault none rfl,
   all_or_nothing.2.1 (fun _ => .ok (.arr [])) apiAddrDefault "bitcoin" rfl,
   all_or_nothing.2.2.1 (fun _ => .error (.transport "connection refused"))
      websiteAddrDefault "bitcoin" none rfl,
   all_or_nothing.2.2.2.1 (fun _ => .error (.transport "connection refused"))
      websiteAddrDefault "bitcoin" rfl⟩

/-- Counterexample for C10: the JSON body `null` decodes into a nil
slice with no error, so `Tickers` succeeds while returning a nil (not
empty) sequence. -/
theorem tickers_null_body_counterexample :
    TickersOp (fun _ => .ok .null) apiAddrDefault none = (none, none) := rfl

/-- C10 amended: on success `Tickers` returns a nil sequence exactly
when the body was the JSON literal `null`; the scraping operations
always return a non-nil sequence on success; and an empty array body or
a zero-row document yields the empty non-nil sequence with no error. -/
theorem nonnil_on_success_amended :
    (∀ (fetch : String → Except CmcError Json) (api : String)
        (opts : Option TickersOptions),
        (TickersOp fetch api opts).2 = none →
        ((TickersOp fetch api opts).1 = none ↔
          fetch (tickersURL api opts) = .ok .null))
    ∧ (∀ (fetch : String → Except CmcError (List PriceRowSel)) (site id : String)
        (opts : Option PricesOptions),
        (PricesOp fetch site id opts).2 = none →
          (PricesOp fetch site id opts).1 ≠ none)
    ∧ (∀ (fetch : String → Except CmcError (List MarketRowSel)) (site id : String),
        (MarketsOp fetch site id).2 = none → (MarketsOp fetch site id).1 ≠ none)
    ∧ TickersOp (fun _ => .ok (.arr [])) apiAddrDefault none = (some [], none)
    ∧ PricesOp (fun _ => .ok []) websiteAddrDefault "tezos" none = (some [], none)
    ∧ MarketsOp (fun _ => .ok []) websiteAddrDefault "tezos" = (some [], none) := by
  refine ⟨?_, ?_, ?_, rfl, rfl, rfl⟩
  · intro fetch api opts h
    unfold TickersOp at h ⊢
    cases hf : fetch (tickersURL api opts) with
    | error e =>
      rw [hf] at h
      exact Option.noConfusion h
    | ok body =>
      rw [hf] at h
      have h' : (match decodeTickerSlice body with
                 | .error e => ((none : Option (List (Option Ticker))), some e)
                 | .ok v => (v, none)).2 = none := h
      show (match decodeTickerSlice body with
            | .error e => ((none : Option (List (Option Ticker))), some e)
            | .ok v => (v, none)).1 = none ↔ Except.ok body = Except.ok Json.null
      cases hd : decodeTickerSlice body with
      | error e =>
        rw [hd] at h'
        exact Option.noConfusion h'
      | ok v =>
        constructor
        · intro hv
          rw [(decodeTickerSlice_none_iff body v hd).mp hv]
        · intro hb
          have hbody : body = Json.null := by injection hb
          exact (decodeTickerSlice_none_iff body v hd).mpr hbody
  · intro fetch site id opts h
    unfold PricesOp at h ⊢
    cases hf : fetch (pricesURL site id opts) with
    | error e =>
      rw [hf] at h
      exact Option.noConfusion h
    | ok rows =>
      rw [hf] at h
      have h' : (match rows.mapM decodePriceRow with
                 | .error e => ((none : Option (List Price)), some e)
                 | .ok qrows => (some (qrows.map priceOfRow), none)).2 = none := h
      show (match rows.mapM decodePriceRow with
            | .error e => ((none : Option (List Price)), some e)
            | .ok qrows => (some (qrows.map priceOfRow), none)).1 ≠ none
      cases hd : rows.mapM decodePriceRow with
      | error e =>
        rw [hd] at h'
        exact Option.noConfusion h'
      | ok qrows =>
        intro hx
        exact Option.noConfusion hx
  · intro fetch site id h
    unfold MarketsOp at h ⊢
    cases hf : fetch (marketsURL site id) with
    | error e =>
      rw [hf] at h
      exact Option.noConfusion h
    | ok rows =>
      rw [hf] at h
      have h' : (match rows.mapM decodeMarketRow with
                 | .error e => ((none : Option (List Market)), some e)
                 | .ok qrows => (some (qrows.map marketOfRow), none)).2 = none := h
      show (match rows.mapM decodeMarketRow with
            | .error e => ((none : Option (List Market)), some e)
            | .ok qrows => (some (qrows.map marketOfRow), none)).1 ≠ none
      cases hd : rows.mapM decodeMarketRow with
      | error e =>
        rw [hd] at h'
        exact Option.noConfusion h'
      | ok qrows =>
        intro hx
        exact Option.noConfusion hx

/-- Witness for C10 amended: with an empty-array body the success
result is non-nil, and a zero-row document also yields a non-nil
result. -/
theorem nonnil_on_success_amended_witness :
    (TickersOp (fun _ => .ok (.arr [])) apiAddrDefault none).1 ≠ none
    ∧ (PricesOp (fun _ => .ok []) websiteAddrDefault "tezos" none).1 ≠ none := by
  constructor
  · intro hx
    have h2 := (nonnil_on_success_amended.1 (fun _ => .ok (.arr []))
      apiAddrDefault none rfl).mp hx
    injection h2 with h3
    exact Json.noConfusion h3
  · exact nonnil_on_success_amended.2.1 (fun _ => .ok []) websiteAddrDefault
      "tezos" none rfl

end Cmc
